import Mathlib

/-!
Verification of `plugins/callback/babelfish_log.py` (ansible callback plugin
`constructorfleet.vogon.babelfish_log`): a shallow embedding of the result
formatter (`CallbackModule._format_output`), the option parsing relevant to the
key whitelist (`CallbackModule.set_options`), the per-event logging pipeline
(`CallbackModule.log`) and the per-host sink registry
(`CallbackModule._get_logger` together with line 271 of `log`), with theorems
checking the specification's claims against these definitions.

Python runtime values are modelled by the tagged union `PyVal` below
(string / int / bool / None / list / dict).  Python dicts are modelled as
ordered association lists (Python 3 dicts preserve insertion order and have
unique keys); Python exceptions are modelled with `Except PyErr`.
-/

/-- Python exceptions that the embedded code can raise.
`indexError` models `IndexError` (from `output[0]` on an empty list),
`typeError` models the `TypeError` (or, for some element shapes,
`AttributeError`) raised when a non-string element reaches the
string-list branch of `_format_output`, and `attributeError` models the
`AttributeError` raised by `invocation.get(...)` when the `invocation`
value is not a dict. -/
inductive PyErr where
  | indexError
  | typeError
  | attributeError
deriving DecidableEq, Repr

mutual
/-- A Python runtime value, as handled by the plugin: scalars, lists, dicts. -/
inductive PyVal where
  | str (s : String)
  | int (n : Int)
  | bool (b : Bool)
  | null
  | list (xs : PyList)
  | dict (ps : PyDict)
deriving DecidableEq, Repr
/-- A Python list of `PyVal`s (spine made explicit for structural recursion). -/
inductive PyList where
  | nil
  | cons (v : PyVal) (tl : PyList)
deriving DecidableEq, Repr
/-- A Python dict: insertion-ordered association list with unique keys. -/
inductive PyDict where
  | nil
  | cons (k : String) (v : PyVal) (tl : PyDict)
deriving DecidableEq, Repr
end

deriving instance DecidableEq for Except

/-- Build a `PyList` from a Lean list (for readable concrete inputs). -/
def pyList : List PyVal → PyList
  | [] => .nil
  | v :: tl => .cons v (pyList tl)

/-- Build a `PyDict` from a Lean association list. -/
def pyDict : List (String × PyVal) → PyDict
  | [] => .nil
  | (k, v) :: tl => .cons k v (pyDict tl)

/-- `d[k]` / `d.get(k)`: first binding of `k` (unique in a Python dict). -/
def PyDict.lookup : PyDict → String → Option PyVal
  | .nil, _ => none
  | .cons k v tl, k' => if k = k' then some v else tl.lookup k'

/-- `k in d`: key membership. -/
def PyDict.hasKey (d : PyDict) (k : String) : Bool :=
  (d.lookup k).isSome

/-- `d.pop(k, ...)`, the removal part: drop the binding of `k` (the first
one; a Python dict has at most one). -/
def PyDict.removeKey : PyDict → String → PyDict
  | .nil, _ => .nil
  | .cons k v tl, k' => if k = k' then tl else .cons k v (tl.removeKey k')

/-- The keys of a dict, in insertion order. -/
def PyDict.keys : PyDict → List String
  | .nil => []
  | .cons k _ tl => k :: tl.keys

/-- Python truthiness (`bool(x)`): empty string, zero, `False`, `None`,
empty list and empty dict are falsy; everything else is truthy. -/
def truthy : PyVal → Bool
  | .str s => !(s = "")
  | .int n => !(n = 0)
  | .bool b => b
  | .null => false
  | .list xs => !(xs = .nil)
  | .dict ps => !(ps = .nil)

/-- Is the value a Python `dict`? (`type(x) == dict` / `isinstance(x, dict)`). -/
def isDict : PyVal → Bool
  | .dict _ => true
  | _ => false

/-- Lowercase hexadecimal digit, as used by Python escape sequences. -/
def hexDigit (n : Nat) : Char :=
  if n < 10 then Char.ofNat (48 + n) else Char.ofNat (87 + n % 16)

/-- Four-digit lowercase hex, as in Python `\uXXXX` escapes. -/
def hex4 (n : Nat) : String :=
  String.mk [hexDigit (n / 4096 % 16), hexDigit (n / 256 % 16),
             hexDigit (n / 16 % 16), hexDigit (n % 16)]

/-- Escape one character the way `json.dumps` (with its default
`ensure_ascii=True`) escapes characters inside a JSON string literal:
backslash, double quote and everything outside the printable ASCII range
`0x20`-`0x7e` are escaped; control and non-ASCII characters become
`\uXXXX` (a surrogate pair above `0xffff`). -/
def jsonEscChar (c : Char) : String :=
  if c = '"' then "\\\""
  else if c = '\\' then "\\\\"
  else if c = '\n' then "\\n"
  else if c = '\t' then "\\t"
  else if c = '\r' then "\\r"
  else if c = '\x08' then "\\b"
  else if c = '\x0c' then "\\f"
  else if 32 ≤ c.toNat ∧ c.toNat ≤ 126 then String.singleton c
  else if c.toNat < 65536 then "\\u" ++ hex4 c.toNat
  else
    "\\u" ++ hex4 (55296 + (c.toNat - 65536) / 1024) ++
    "\\u" ++ hex4 (56320 + (c.toNat - 65536) % 1024)

/-- A JSON string literal for `s`, per `json.dumps`. -/
def jsonStrLit (s : String) : String :=
  "\"" ++ String.join (s.data.map jsonEscChar) ++ "\""

/-- Render a scalar the way `json.dumps` does. -/
def jsonScalar : PyVal → String
  | .str s => jsonStrLit s
  | .int n => toString n
  | .bool b => if b then "true" else "false"
  | .null => "null"
  | .list _ => ""
  | .dict _ => ""

/-- Lexicographic code-point comparison of character lists — the order `<`
on Python strings. -/
def listCharLt : List Char → List Char → Bool
  | [], [] => false
  | [], _ :: _ => true
  | _ :: _, [] => false
  | a :: as, b :: bs =>
    if a.toNat < b.toNat then true
    else if b.toNat < a.toNat then false
    else listCharLt as bs

/-- Python string `<` (code-point lexicographic). -/
def pyStrLt (a b : String) : Bool :=
  listCharLt a.data b.data

/-- `c in s` for a single character. -/
def containsChar (c : Char) (s : String) : Bool :=
  s.data.contains c

/-- Python `s.split(sep)` for a one-character separator `sep`: the empty
string yields `[""]`, and a trailing separator yields a trailing `""`. -/
def splitOnCharGo (c : Char) : List Char → List Char → List String
  | [], acc => [String.mk acc.reverse]
  | x :: xs, acc =>
    if x = c then String.mk acc.reverse :: splitOnCharGo c xs []
    else splitOnCharGo c xs (x :: acc)

/-- Python `s.split(c)` for one-character `c`. -/
def splitOnChar (c : Char) (s : String) : List String :=
  splitOnCharGo c s.data []

/-- Stable insertion of a binding into a key-sorted dict (ascending by
code-point order, the order `sorted` uses on Python strings). -/
def insertSorted (k : String) (v : PyVal) : PyDict → PyDict
  | .nil => .cons k v .nil
  | .cons k' v' tl =>
    if pyStrLt k' k then .cons k' v' (insertSorted k v tl)
    else .cons k v (.cons k' v' tl)

/-- Sort the bindings of one dict by key (`sort_keys=True` at one level). -/
def sortByKey : PyDict → PyDict
  | .nil => .nil
  | .cons k v tl => insertSorted k v (sortByKey tl)

mutual
/-- Recursively key-sort every dict inside a value.  `json.dumps(x,
sort_keys=True)` emits every dict's items in sorted key order; we model this
one-pass behaviour as this sorting pass followed by in-order rendering. -/
def sortAll : PyVal → PyVal
  | .str s => .str s
  | .int n => .int n
  | .bool b => .bool b
  | .null => .null
  | .list xs => .list (sortAllL xs)
  | .dict ps => .dict (sortByKey (sortAllD ps))
def sortAllL : PyList → PyList
  | .nil => .nil
  | .cons v tl => .cons (sortAll v) (sortAllL tl)
def sortAllD : PyDict → PyDict
  | .nil => .nil
  | .cons k v tl => .cons k (sortAll v) (sortAllD tl)
end

/-- `indent=2` padding at nesting level `lvl`. -/
def pad (lvl : Nat) : String :=
  String.mk (List.replicate (2 * lvl) ' ')

mutual
/-- Render a (pre-key-sorted) value as `json.dumps(·, indent=2)` does:
containers open on their own line, items indented two more spaces per level,
items separated by `,\n`, key separator `": "`; empty containers render as
`[]` / `\x7b\x7d` with no newline. -/
def jsonIndV (lvl : Nat) : PyVal → String
  | .list .nil => "[]"
  | .list xs =>
    "[\n" ++ jsonIndL lvl xs ++ "\n" ++ pad lvl ++ "]"
  | .dict .nil => "\x7b\x7d"
  | .dict ps =>
    "\x7b\n" ++ jsonIndD lvl ps ++ "\n" ++ pad lvl ++ "\x7d"
  | v => jsonScalar v
def jsonIndL (lvl : Nat) : PyList → String
  | .nil => ""
  | .cons v .nil => pad (lvl + 1) ++ jsonIndV (lvl + 1) v
  | .cons v tl =>
    pad (lvl + 1) ++ jsonIndV (lvl + 1) v ++ ",\n" ++ jsonIndL lvl tl
def jsonIndD (lvl : Nat) : PyDict → String
  | .nil => ""
  | .cons k v .nil =>
    pad (lvl + 1) ++ jsonStrLit k ++ ": " ++ jsonIndV (lvl + 1) v
  | .cons k v tl =>
    pad (lvl + 1) ++ jsonStrLit k ++ ": " ++ jsonIndV (lvl + 1) v ++ ",\n" ++
    jsonIndD lvl tl
end

/-- `json.dumps(x, indent=2, sort_keys=True)`, as called by
`_format_output` (lines 203 and 217). -/
def jsonDumpsSorted (x : PyVal) : String :=
  jsonIndV 0 (sortAll x)

mutual
/-- `json.dumps(x)` with default arguments, as called on the invocation
arguments at line 257: compact single-line output with `", "` item and
`": "` key separators, insertion order preserved. -/
def jsonCompactV : PyVal → String
  | .list .nil => "[]"
  | .list xs => "[" ++ jsonCompactL xs ++ "]"
  | .dict .nil => "\x7b\x7d"
  | .dict ps => "\x7b" ++ jsonCompactD ps ++ "\x7d"
  | v => jsonScalar v
def jsonCompactL : PyList → String
  | .nil => ""
  | .cons v .nil => jsonCompactV v
  | .cons v tl => jsonCompactV v ++ ", " ++ jsonCompactL tl
def jsonCompactD : PyDict → String
  | .nil => ""
  | .cons k v .nil => jsonStrLit k ++ ": " ++ jsonCompactV v
  | .cons k v tl => jsonStrLit k ++ ": " ++ jsonCompactV v ++ ", " ++ jsonCompactD tl
end

/-- Two-digit lowercase hex, as in Python `\xXX` escapes inside `repr`. -/
def hex2 (n : Nat) : String :=
  String.mk [hexDigit (n / 16 % 16), hexDigit (n % 16)]

/-- Escape one character inside a Python string `repr` with quote
character `q`: backslash, the quote, and control characters are escaped
(`\n`, `\r`, `\t` named; other controls as `\xXX`); everything else is
kept as is. -/
def reprEscChar (q : Char) (c : Char) : String :=
  if c = '\\' then "\\\\"
  else if c = q then "\\" ++ String.singleton q
  else if c = '\n' then "\\n"
  else if c = '\r' then "\\r"
  else if c = '\t' then "\\t"
  else if c.toNat < 32 ∨ c.toNat = 127 then "\\x" ++ hex2 c.toNat
  else String.singleton c

/-- Python `repr` of a string: quoted with `'` unless the string contains
`'` and no `"`, with `reprEscChar` escaping. -/
def pyStrRepr (s : String) : String :=
  let q : Char :=
    if containsChar '\x27' s ∧ !(containsChar '"' s) then '"' else '\x27'
  String.singleton q ++ String.join (s.data.map (reprEscChar q)) ++ String.singleton q

mutual
/-- Python `repr` of a value (used by `str` on lists and dicts): strings
are quoted with `'` unless they contain `'` and no `"`, ints/bools/None
print as themselves, containers recurse with `", "` separators. -/
def pyRepr : PyVal → String
  | .str s => pyStrRepr s
  | .int n => toString n
  | .bool b => if b then "True" else "False"
  | .null => "None"
  | .list xs => "[" ++ pyReprL xs ++ "]"
  | .dict ps => "\x7b" ++ pyReprD ps ++ "\x7d"
def pyReprL : PyList → String
  | .nil => ""
  | .cons v .nil => pyRepr v
  | .cons v tl => pyRepr v ++ ", " ++ pyReprL tl
def pyReprD : PyDict → String
  | .nil => ""
  | .cons k v .nil => pyStrRepr k ++ ": " ++ pyRepr v
  | .cons k v tl => pyStrRepr k ++ ": " ++ pyRepr v ++ ", " ++ pyReprD tl
end

/-- Python `str(x)` (also what `"%s" % x` interpolates): the string itself
for strings, decimal for ints, `True`/`False`/`None` for bools and `None`,
and `repr`-style rendering for lists and dicts. -/
def pyStr : PyVal → String
  | .str s => s
  | v => pyRepr v

/-- The known verbose fields re-rendered in place inside a list of dicts
(`FIELDS`, lines 103-113 of the source). -/
def FIELDS : List String :=
  ["cmd", "command", "start", "end", "delta", "msg", "stdout", "stderr", "results"]

/-- `set_options` whitelist parsing (lines 172-174):
`self.whitelist_keys = (self.get_option('whitelist_dict_keys') ... ).split(',')`.
Python `str.split(',')` never returns an empty list: on the empty string it
returns `[""]`. -/
def parseWhitelistKeys (s : String) : List String :=
  splitOnChar ',' s

/-- The dict comprehension of lines 197-202: keep the bindings whose key is
in the whitelist, preserving order. -/
def filterKeys (wl : List String) : PyDict → PyDict
  | .nil => .nil
  | .cons k v tl =>
    if wl.contains k then .cons k v (filterKeys wl tl) else filterKeys wl tl

/-- The string-list branch body (lines 220-228): walk the list, splitting
every string element that contains an embedded `"\n"` into its lines and
keeping the other strings whole, in order.  A non-string element raises
(`TypeError` at `"\n" in item` for numbers; for container elements the
`TypeError` — or `AttributeError` — surfaces slightly later, at
`"".join(real_output)` or `item.split`; all are modelled as `typeError`). -/
def buildLines : PyList → Except PyErr (List String)
  | .nil => .ok []
  | .cons (.str s) tl =>
    match buildLines tl with
    | .error e => .error e
    | .ok rest =>
      .ok ((if containsChar '\n' s then splitOnChar '\n' s else [s]) ++ rest)
  | .cons _ _ => .error .typeError

mutual
/-- Shallow embedding of `CallbackModule._format_output` (lines 192-238),
with the whitelist (`self.whitelist_keys`) passed explicitly.  The result is
the returned text **paired with the value as it stands after the call**: the
list-of-dicts branch assigns `copy[field] = self._format_output(item[field])`
with `copy = item`, mutating the input in place, and then serializes the
mutated `output`; every other branch leaves the input unchanged.  The
per-`FIELDS` update loop is modelled entry-wise, which agrees with the
source's iteration over `FIELDS` because a Python dict's keys are unique
(when several fields raise, the surviving exception kind may differ; no
theorem below depends on that).  Raised Python exceptions are `Except.error`
values. -/
def formatOutput (wl : List String) : PyVal → Except PyErr (String × PyVal)
  | .dict ps =>
    -- lines 194-203: copy, filter when `self.whitelist_keys` is truthy
    -- (a non-empty list), then `json.dumps(..., indent=2, sort_keys=True)`
    let filtered := if wl.isEmpty then ps else filterKeys wl ps
    .ok (jsonDumpsSorted (.dict filtered), .dict ps)
  | .list xs =>
    match xs with
    | .nil =>
      -- line 206: `type(output[0])` on an empty list raises IndexError
      .error .indexError
    | .cons h tl =>
      if isDict h then
        -- lines 206-217: re-render the known verbose fields of each dict
        -- element in place, then dump the (mutated) list
        match formatItems wl (PyList.cons h tl) with
        | .error e => .error e
        | .ok items =>
          .ok (jsonDumpsSorted (.list items), .list items)
      else
        -- lines 220-235: list of strings
        match buildLines (PyList.cons h tl) with
        | .error e => .error e
        | .ok real =>
          if (String.join real).length > 75 then
            .ok ("\n" ++ String.intercalate "\n" real, .list (PyList.cons h tl))
          else
            .ok (String.intercalate " " real, .list (PyList.cons h tl))
  | v =>
    -- line 238: `str(output)`
    .ok (pyStr v, v)
/-- The loop of lines 209-216 over the elements of a list of dicts. -/
def formatItems (wl : List String) : PyList → Except PyErr PyList
  | .nil => .ok .nil
  | .cons item tl =>
    match item with
    | .dict ps =>
      match formatEntries wl ps with
      | .error e => .error e
      | .ok ps' =>
        match formatItems wl tl with
        | .error e => .error e
        | .ok tl' => .ok (.cons (.dict ps') tl')
    | x =>
      match formatItems wl tl with
      | .error e => .error e
      | .ok tl' => .ok (.cons x tl')
/-- The per-dict update of lines 213-215: every binding whose key is in
`FIELDS` has its value replaced by the text `_format_output` returns for it;
other bindings are untouched. -/
def formatEntries (wl : List String) : PyDict → Except PyErr PyDict
  | .nil => .ok .nil
  | .cons k v tl =>
    if FIELDS.contains k then
      match formatOutput wl v with
      | .error e => .error e
      | .ok tv =>
        match formatEntries wl tl with
        | .error e => .error e
        | .ok tl' => .ok (.cons k (.str tv.1) tl')
    else
      match formatEntries wl tl with
      | .error e => .error e
      | .ok tl' => .ok (.cons k v tl')
end

/-- Just the text `_format_output` returns (discarding the in-place
mutation of the argument). -/
def fmtText (wl : List String) (v : PyVal) : Except PyErr String :=
  match formatOutput wl v with
  | .error e => .error e
  | .ok tv => .ok tv.1

/-- The plugin options that the logging path reads (a slice of the record
`set_options` resolves): `respect_no_log`, `format_invocation`, and the
parsed `whitelist_dict_keys` list (`self.whitelist_keys`). -/
structure Config where
  respectNoLog : Bool
  formatInvocation : Bool
  whitelistKeys : List String
deriving DecidableEq, Repr

/-- The named values substituted into the message template (the default
`msg_format` is
`"%(now)s - %(playbook)s - %(task_name)s - %(task_action)s - %(category)s - %(data)s\n\n"`). -/
structure LogLine where
  now : String
  playbook : String
  taskName : String
  taskAction : String
  category : String
  data : String
deriving DecidableEq, Repr

/-- Instantiate the default `msg_format` template (lines 262-269; `%s`
interpolation of already-string values). -/
def renderLine (l : LogLine) : String :=
  l.now ++ " - " ++ l.playbook ++ " - " ++ l.taskName ++ " - " ++
  l.taskAction ++ " - " ++ l.category ++ " - " ++ l.data ++ "\n\n"

/-- One engine callback's inputs to `log`: the fields of `result` that
`log` reads, plus the category label chosen by the event router. -/
structure Event where
  host : String
  taskName : String
  taskAction : String
  category : String
  res : PyVal
deriving DecidableEq, Repr

/-- Process state touched by `log`: the per-host registry
(`self.loggers`, keyed by host name, each entry holding a sink id) and the
lines so far appended to each sink.  Sink ids are allocation order; a fresh
sink starts with no lines written by this process. -/
structure SinkState where
  nextId : Nat
  registry : List (String × Nat)
  sinks : List (Nat × List String)
deriving DecidableEq, Repr

/-- The state before the first `log` call (`loggers = {}`). -/
def initState : SinkState :=
  { nextId := 0, registry := [], sinks := [] }

/-- Lines 270-271 together with `_get_logger` (lines 179-190): look the
host up in `self.loggers`; on a hit return the existing sink unchanged, on
a miss create a fresh sink for this host, record it in the registry, and
return it.  Result: (sink id, whether this lookup missed, new state). -/
def resolveSink (st : SinkState) (host : String) : Nat × Bool × SinkState :=
  match st.registry.lookup host with
  | some sid => (sid, false, st)
  | none =>
    (st.nextId, true,
      { nextId := st.nextId + 1,
        registry := (host, st.nextId) :: st.registry,
        sinks := (st.nextId, []) :: st.sinks })

/-- `logger.log(log_level, msg)` (line 273): append one line to the sink
with id `sid`.  (The logger's level is `INFO` and every category logs at
`INFO` or above, so the line is always emitted.) -/
def appendLine (st : SinkState) (sid : Nat) (line : String) : SinkState :=
  { st with
    sinks := st.sinks.map (fun p => if p.1 = sid then (p.1, p.2 ++ [line]) else p) }

/-- The data-segment computation of `log` (lines 241-258): `none` means the
event is suppressed (the early `return`), `some s` is the string that
`%(data)s` interpolates.

Modelled from the spec: line 243 of the source reads
`if self.resp data.get('_ansible_no_log', False):`, which is not
syntactically valid Python, so the no-log conditional cannot be taken from
the source; following the spec ("If `respectNoLog` is enabled and the
payload (when it is a mapping) carries a no-log marker flag set true,
suppress entirely") and the plugin's own `respect_no_log` option
documentation, it is modelled as
`self.respect_no_log and data.get('_ansible_no_log', False)`.  Everything
else in this definition is embedded from the source (lines 246-258). -/
def computeData (cfg : Config) (res : PyVal) : Except PyErr (Option String) :=
  match res with
  | .dict ps =>
    if cfg.respectNoLog && truthy ((ps.lookup "_ansible_no_log").getD (.bool false)) then
      -- lines 243-244: suppress, return early
      .ok none
    else if ps.hasKey "_ansible_verbose_override" then
      -- lines 246-248: redact the whole body
      .ok (some "omitted")
    else
      -- lines 250-258: pop the invocation, render body and module args
      let rest := ps.removeKey "invocation"
      let inv := (ps.lookup "invocation").getD (.dict .nil)
      let margsE : Except PyErr PyVal :=
        match inv with
        | .dict ips => .ok ((ips.lookup "module_args").getD .null)
        | _ => .error .attributeError
      match margsE with
      | .error e => .error e
      | .ok margs =>
        match fmtText cfg.whitelistKeys (.dict rest) with
        | .error e => .error e
        | .ok body =>
          if margs = .null then .ok (some body)
          else
            match
              (if cfg.formatInvocation then fmtText cfg.whitelistKeys margs
               else .ok (jsonCompactV margs)) with
            | .error e => .error e
            | .ok invText => .ok (some (invText ++ " => " ++ body ++ " "))
  | v =>
    -- non-mapping payload: the whole `isinstance` block is skipped and the
    -- raw value reaches the `%` interpolation, which applies `str` to it
    .ok (some (pyStr v))

/-- Shallow embedding of `CallbackModule.log` (lines 240-273): compute the
data segment (possibly suppressing the event), compose the line from the
default template, resolve or create the per-host sink, and append the
rendered line to it.  `now` and `playbook` stand for `time.strftime(...)`
and `self.playbook` at call time. -/
def logStep (cfg : Config) (now playbook : String) (st : SinkState)
    (ev : Event) : Except PyErr (SinkState × Option LogLine) :=
  match computeData cfg ev.res with
  | .error e => .error e
  | .ok none => .ok (st, none)
  | .ok (some d) =>
    let l : LogLine :=
      { now := now, playbook := playbook, taskName := ev.taskName,
        taskAction := ev.taskAction, category := ev.category, data := d }
    let r := resolveSink st ev.host
    .ok (appendLine r.2.2 r.1 (renderLine l), some l)

/-- Run a sequence of sink resolutions (one per log call, in arrival
order), collecting the trace of (host, sink id, missed?) triples. -/
def runHosts : SinkState → List String → List (String × Nat × Bool) × SinkState
  | st, [] => ([], st)
  | st, h :: tl =>
    let r := resolveSink st h
    let rest := runHosts r.2.2 tl
    ((h, r.1, r.2.1) :: rest.1, rest.2)

/-- The string-list branch as the specification words it: split every
element containing embedded line breaks into separate lines, flatten in
order, then join with a leading newline and newline separators when the
joined length of all lines exceeds 75 characters, and with single spaces
otherwise. -/
def splitJoinSpec (ss : List String) : String :=
  let L := ss.flatMap (fun s => if containsChar '\n' s then splitOnChar '\n' s else [s])
  if (String.join L).length > 75 then "\n" ++ String.intercalate "\n" L
  else String.intercalate " " L

/-- Does `n` occur as a leading block of `h`? -/
def leadMatch : List Char → List Char → Bool
  | [], _ => true
  | _ :: _, [] => false
  | a :: as, b :: bs => a == b && leadMatch as bs

/-- Does `n` occur as a contiguous block anywhere inside `h`? -/
def subMatch (n : List Char) : List Char → Bool
  | [] => leadMatch n []
  | b :: bs => leadMatch n (b :: bs) || subMatch n bs

/-- How many entries of a resolution trace are misses for host `h`. -/
def countMiss (h : String) : List (String × Nat × Bool) → Nat
  | [] => 0
  | e :: tl => (if e.1 = h ∧ e.2.2 = true then 1 else 0) + countMiss h tl

/-- Registry well-formedness: every recorded sink id is below the
allocation counter, and no sink id is recorded twice. -/
def regWF (st : SinkState) : Prop :=
  (∀ p ∈ st.registry, p.2 < st.nextId) ∧ (st.registry.map Prod.snd).Nodup

theorem buildLines_strs (ss : List String) :
    buildLines (pyList (ss.map PyVal.str)) =
      .ok (ss.flatMap (fun s => if containsChar '\n' s then splitOnChar '\n' s else [s])) := by
  induction ss with
  | nil => rfl
  | cons s tl ih =>
    simp [pyList, buildLines, ih, List.flatMap_cons]

theorem fmt_string_list (wl : List String) (s : String) (rest : List String) :
    fmtText wl (.list (pyList ((s :: rest).map PyVal.str))) =
      .ok (splitJoinSpec (s :: rest)) := by
  have hb := buildLines_strs (s :: rest)
  simp only [List.map_cons, pyList] at hb ⊢
  simp only [splitJoinSpec, fmtText, formatOutput, isDict, hb]
  generalize ((s :: rest).flatMap fun s => if containsChar '\n' s = true then splitOnChar '\n' s else [s]) = L
  by_cases hc : 75 < (String.join L).length <;> simp [hc]

theorem formatOutput_str (wl : List String) (s : String) :
    formatOutput wl (.str s) = .ok (s, .str s) := rfl

theorem formatEntries_idem (wl : List String) :
    ∀ (ps ps' : PyDict), formatEntries wl ps = .ok ps' → formatEntries wl ps' = .ok ps'
  | .nil, ps', h => by
    simp only [formatEntries] at h
    injection h with h
    subst h
    rfl
  | .cons k v tl, ps', h => by
    simp only [formatEntries] at h
    by_cases hk : FIELDS.contains k = true
    · rw [if_pos hk] at h
      cases hf : formatOutput wl v with
      | error e => rw [hf] at h; simp at h
      | ok tv =>
        rw [hf] at h
        cases he : formatEntries wl tl with
        | error e => rw [he] at h; simp at h
        | ok tl' =>
          rw [he] at h
          injection h with h
          subst h
          simp only [formatEntries, if_pos hk, formatOutput_str,
            formatEntries_idem wl tl tl' he]
    · rw [if_neg hk] at h
      cases he : formatEntries wl tl with
      | error e => rw [he] at h; simp at h
      | ok tl' =>
        rw [he] at h
        injection h with h
        subst h
        simp only [formatEntries, if_neg hk, formatEntries_idem wl tl tl' he]

theorem formatItems_idem (wl : List String) :
    ∀ (xs xs' : PyList), formatItems wl xs = .ok xs' → formatItems wl xs' = .ok xs'
  | .nil, xs', h => by
    simp only [formatItems] at h
    injection h with h
    subst h
    rfl
  | .cons item tl, xs', h => by
    cases item with
    | dict ps =>
      simp only [formatItems] at h
      cases he : formatEntries wl ps with
      | error e => rw [he] at h; simp at h
      | ok ps' =>
        rw [he] at h
        cases hi : formatItems wl tl with
        | error e => rw [hi] at h; simp at h
        | ok tl' =>
          rw [hi] at h
          injection h with h
          subst h
          simp only [formatItems, formatEntries_idem wl ps ps' he,
            formatItems_idem wl tl tl' hi]
    | str s =>
      simp only [formatItems] at h
      cases hi : formatItems wl tl with
      | error e => rw [hi] at h; simp at h
      | ok tl' =>
        rw [hi] at h
        injection h with h
        subst h
        simp only [formatItems, formatItems_idem wl tl tl' hi]
    | int n =>
      simp only [formatItems] at h
      cases hi : formatItems wl tl with
      | error e => rw [hi] at h; simp at h
      | ok tl' =>
        rw [hi] at h
        injection h with h
        subst h
        simp only [formatItems, formatItems_idem wl tl tl' hi]
    | bool b =>
      simp only [formatItems] at h
      cases hi : formatItems wl tl with
      | error e => rw [hi] at h; simp at h
      | ok tl' =>
        rw [hi] at h
        injection h with h
        subst h
        simp only [formatItems, formatItems_idem wl tl tl' hi]
    | null =>
      simp only [formatItems] at h
      cases hi : formatItems wl tl with
      | error e => rw [hi] at h; simp at h
      | ok tl' =>
        rw [hi] at h
        injection h with h
        subst h
        simp only [formatItems, formatItems_idem wl tl tl' hi]
    | list ys =>
      simp only [formatItems] at h
      cases hi : formatItems wl tl with
      | error e => rw [hi] at h; simp at h
      | ok tl' =>
        rw [hi] at h
        injection h with h
        subst h
        simp only [formatItems, formatItems_idem wl tl tl' hi]

theorem resolveSink_lookup_self (st : SinkState) (h : String) :
    ((resolveSink st h).2.2).registry.lookup h = some (resolveSink st h).1 := by
  unfold resolveSink
  cases hl : st.registry.lookup h with
  | some s => simp [hl]
  | none => simp [hl, List.lookup]

theorem resolveSink_lookup_other (st : SinkState) (h h' : String) (hne : h' ≠ h) :
    ((resolveSink st h).2.2).registry.lookup h' = st.registry.lookup h' := by
  unfold resolveSink
  cases hl : st.registry.lookup h with
  | some s => simp
  | none =>
    have hb : (h' == h) = false := by simp [hne]
    simp [List.lookup, hb]

theorem runHosts_lookup_preserve (hs : List String) :
    ∀ (st : SinkState) (h : String) (s : Nat), st.registry.lookup h = some s →
      ((runHosts st hs).2).registry.lookup h = some s := by
  induction hs with
  | nil => intro st h s hl; simpa [runHosts]
  | cons h0 tl ih =>
    intro st h s hl
    simp only [runHosts]
    apply ih
    by_cases he : h = h0
    · subst he
      unfold resolveSink
      rw [hl]
      exact hl
    · rw [resolveSink_lookup_other st h0 h he]
      exact hl

theorem lookup_val_mem : ∀ (l : List (String × Nat)) (h : String) (s : Nat),
    l.lookup h = some s → s ∈ l.map Prod.snd
  | [], h, s, hl => by simp [List.lookup] at hl
  | (k, v) :: tl, h, s, hl => by
    simp only [List.lookup] at hl
    cases hb : h == k with
    | true => rw [hb] at hl; injection hl with hl; subst hl; simp
    | false =>
      rw [hb] at hl
      simpa using Or.inr (lookup_val_mem tl h s hl)

theorem lookup_inj : ∀ (l : List (String × Nat)) (h h' : String) (a : Nat),
    (l.map Prod.snd).Nodup → l.lookup h = some a → l.lookup h' = some a → h = h'
  | [], h, h', a, _, hl, _ => by simp [List.lookup] at hl
  | (k, v) :: tl, h, h', a, hn, hl, hl' => by
    simp only [List.lookup] at hl hl'
    simp only [List.map_cons, List.nodup_cons] at hn
    cases hb : h == k with
    | true =>
      rw [hb] at hl
      injection hl with hl
      cases hb' : h' == k with
      | true =>
        have e1 : h = k := by simpa using hb
        have e2 : h' = k := by simpa using hb'
        rw [e1, e2]
      | false =>
        rw [hb'] at hl'
        subst hl
        exact absurd (lookup_val_mem tl h' _ hl') hn.1
    | false =>
      rw [hb] at hl
      cases hb' : h' == k with
      | true =>
        rw [hb'] at hl'
        injection hl' with hl'
        subst hl'
        exact absurd (lookup_val_mem tl h _ hl) hn.1
      | false =>
        rw [hb'] at hl'
        exact lookup_inj tl h h' a hn.2 hl hl'

theorem regWF_resolve (st : SinkState) (h : String) (hw : regWF st) :
    regWF (resolveSink st h).2.2 := by
  unfold resolveSink
  cases hl : st.registry.lookup h with
  | some s => simpa using hw
  | none =>
    constructor
    · intro p hp
      simp only [List.mem_cons] at hp
      rcases hp with hp | hp
      · subst hp; simp
      · exact Nat.lt_trans (hw.1 p hp) (Nat.lt_succ_self _)
    · simp only [List.map_cons, List.nodup_cons]
      refine ⟨fun hmem => ?_, hw.2⟩
      rcases List.mem_map.mp hmem with ⟨p, hp, hv⟩
      exact absurd (hv ▸ hw.1 p hp) (Nat.lt_irrefl _)

theorem regWF_run (hs : List String) :
    ∀ (st : SinkState), regWF st → regWF (runHosts st hs).2 := by
  induction hs with
  | nil => intro st hw; simpa [runHosts]
  | cons h0 tl ih =>
    intro st hw
    simp only [runHosts]
    exact ih _ (regWF_resolve st h0 hw)

theorem resolveSink_hit (st : SinkState) (h : String) (s : Nat)
    (hl : st.registry.lookup h = some s) : resolveSink st h = (s, false, st) := by
  unfold resolveSink
  rw [hl]

theorem resolveSink_miss (st : SinkState) (h : String)
    (hl : st.registry.lookup h = none) :
    resolveSink st h =
      (st.nextId, true,
        ⟨st.nextId + 1, (h, st.nextId) :: st.registry, (st.nextId, []) :: st.sinks⟩) := by
  unfold resolveSink
  rw [hl]

theorem countMiss_run (hs : List String) :
    ∀ (st : SinkState) (h : String),
      countMiss h (runHosts st hs).1 =
        if (st.registry.lookup h).isSome then 0 else if h ∈ hs then 1 else 0 := by
  induction hs with
  | nil =>
    intro st h
    simp [runHosts, countMiss]
  | cons h0 tl ih =>
    intro st h
    cases hl : st.registry.lookup h0 with
    | some s =>
      simp only [runHosts, resolveSink_hit st h0 s hl, countMiss, and_false,
        if_false, Nat.zero_add]
      rw [ih st h]
      by_cases he : h = h0
      · subst he
        rw [hl]
        simp
      · simp [List.mem_cons, he]
    | none =>
      simp only [runHosts, resolveSink_miss st h0 hl, countMiss]
      by_cases he : h = h0
      · subst he
        rw [hl]
        have hlk : (((h, st.nextId) :: st.registry).lookup h) = some st.nextId := by
          simp [List.lookup]
        rw [ih _ h, hlk]
        simp
      · have hlk : (((h0, st.nextId) :: st.registry).lookup h) = st.registry.lookup h := by
          have hb : (h == h0) = false := by simp [he]
          simp [List.lookup, hb]
        rw [ih _ h, hlk]
        simp [Ne.symm he, List.mem_cons, he]

theorem trace_sid_final (hs : List String) :
    ∀ (st : SinkState), ∀ e ∈ (runHosts st hs).1,
      ((runHosts st hs).2).registry.lookup e.1 = some e.2.1 := by
  induction hs with
  | nil => intro st e he; simp [runHosts] at he
  | cons h0 tl ih =>
    intro st e he
    simp only [runHosts, List.mem_cons] at he ⊢
    rcases he with he | he
    · subst he
      exact runHosts_lookup_preserve tl _ _ _ (resolveSink_lookup_self st h0)
    · exact ih _ e he

/-- C1: the claim says an empty configured whitelist disables filtering.
In the code it does not: `set_options` computes `''.split(',') == ['']`, a
non-empty (truthy) list, so `_format_output` filters a mapping to the keys
contained in `[""]` — normally none of them — and renders `\x7b\x7d`,
dropping every key of the mapping (here `rc`).  Filtering is only really
disabled when the whitelist list is empty (third conjunct), a value
`set_options` never produces.  This contradicts the plugin's own option
documentation ("all if empty"). -/
theorem whitelist_empty_option_filters_all_keys :
    parseWhitelistKeys "" = [""] ∧
    fmtText (parseWhitelistKeys "") (.dict (.cons "rc" (.int 0) .nil)) =
      .ok "\x7b\x7d" ∧
    fmtText [] (.dict (.cons "rc" (.int 0) .nil)) =
      .ok "\x7b\n  \"rc\": 0\n\x7d" := by
  refine ⟨by decide, by decide, by decide⟩

/-- C2: with the no-log marker set to a truthy value and `respect_no_log`
enabled, `log` returns before composing anything: the state (registry and
every sink's contents) is unchanged and no line is produced.  The no-log
conditional itself is modelled from the spec because source line 243
(`if self.resp data.get('_ansible_no_log', False):`) is a syntax error. -/
theorem log_noLog_suppresses (cfg : Config) (now pb : String) (st : SinkState)
    (ev : Event) (ps : PyDict) (v : PyVal)
    (h1 : ev.res = .dict ps) (h2 : cfg.respectNoLog = true)
    (h3 : ps.lookup "_ansible_no_log" = some v) (h4 : truthy v = true) :
    logStep cfg now pb st ev = .ok (st, none) := by
  unfold logStep computeData
  rw [h1]
  simp [h2, h3, h4]

/-- C2 witness: a concrete suppressed event leaves the initial state
untouched. -/
theorem log_noLog_suppresses_witness :
    logStep ⟨true, false, [""]⟩ "now" "pb" initState
      ⟨"host1", "task", "shell", "OK",
        .dict (.cons "_ansible_no_log" (.bool true) (.cons "cmd" (.str "x") .nil))⟩ =
      .ok (initState, none) :=
  log_noLog_suppresses _ _ _ _ _
    (.cons "_ansible_no_log" (.bool true) (.cons "cmd" (.str "x") .nil))
    (.bool true) rfl rfl (by decide) rfl

/-- C3: the claim (and the spec's error-handling section) requires the
empty sequence to be a defined, non-crashing case.  The code instead
evaluates `output[0]` on the empty list at line 206 and raises
`IndexError`, crashing the whole `log` call: no fallback line is
produced. -/
theorem formatOutput_empty_list_indexError (wl : List String) :
    fmtText wl (.list .nil) = .error .indexError := rfl

/-- C4 (amended): for every non-empty sequence of *strings*, the branch
behaves exactly as claimed — elements with embedded line breaks are split
into lines, the flattened line list is joined with a leading newline and
newline separators when the joined length exceeds 75 characters and with
single spaces otherwise; in particular the two claimed scenarios hold.
The claim's wording "non-mapping scalars" is amended to "strings": see
the counterexample for numeric elements. -/
theorem formatOutput_string_list_split_join :
    (∀ (wl : List String) (s : String) (rest : List String),
      fmtText wl (.list (pyList ((s :: rest).map PyVal.str))) =
        .ok (splitJoinSpec (s :: rest))) ∧
    fmtText [] (.list (pyList [.str (String.mk (List.replicate 40 'a')),
                               .str (String.mk (List.replicate 40 'b'))])) =
      .ok ("\n" ++ String.mk (List.replicate 40 'a') ++ "\n" ++
           String.mk (List.replicate 40 'b')) ∧
    fmtText [] (.list (pyList [.str "x", .str "y"])) = .ok "x y" :=
  ⟨fmt_string_list, by decide, by decide⟩

/-- C4 counterexample: on a non-empty sequence of non-string scalars the
Formatter does not return the space-joined text the claim promises — the
membership test `"\n" in item` raises `TypeError` on a number, so the call
raises instead of returning. -/
theorem formatOutput_int_list_typeError :
    fmtText [] (.list (pyList [.int 5, .int 6])) = .error .typeError ∧
    fmtText [] (.list (pyList [.str "5", .str "6"])) = .ok "5 6" := by
  refine ⟨by decide, by decide⟩

/-- C5 (amended): the mapping \x7b"stdout": "l1\nl2", "rc": 0\x7d rendered
with an empty whitelist *list* yields key-sorted JSON text with `rc`
before `stdout`, but `stdout`'s value is the JSON-escaped string literal
`"l1\\nl2"` on a single line — the dict branch serializes values with
`json.dumps`, which escapes the embedded newline, and never re-renders
field values. -/
theorem formatOutput_rc_stdout_amended :
    fmtText [] (.dict (.cons "stdout" (.str "l1\nl2") (.cons "rc" (.int 0) .nil))) =
      .ok ("\x7b\n" ++ "  \"rc\": 0" ++ ",\n" ++ "  \"stdout\": " ++
           jsonStrLit "l1\nl2" ++ "\n\x7d") ∧
    jsonStrLit "l1\nl2" = "\"l1\\nl2\"" := by
  refine ⟨by decide, by decide⟩

/-- C5 counterexample: the rendered text does not contain `stdout`'s value
as a two-line block — the character sequence `l1`, newline, `l2` does not
occur in the output, refuting the claim that the value is rendered as a
two-line block. -/
theorem formatOutput_rc_stdout_not_multiline :
    fmtText [] (.dict (.cons "stdout" (.str "l1\nl2") (.cons "rc" (.int 0) .nil))) =
      .ok "\x7b\n  \"rc\": 0,\n  \"stdout\": \"l1\\nl2\"\n\x7d" ∧
    subMatch ("l1\nl2".data)
      ("\x7b\n  \"rc\": 0,\n  \"stdout\": \"l1\\nl2\"\n\x7d".data) = false := by
  refine ⟨by decide, by decide⟩

/-- C6: whenever the mapping payload contains the verbose-override marker
key and `log` composes a line at all, that line's data segment is the
literal text "omitted", whatever else the payload holds.  (When the
no-log check suppresses the event first, no line exists, so the property
is stated for every line the call produces.) -/
theorem log_verbose_override_omits (cfg : Config) (now pb : String)
    (st : SinkState) (ev : Event) (ps : PyDict)
    (h1 : ev.res = .dict ps)
    (h2 : ps.hasKey "_ansible_verbose_override" = true) :
    ∀ st' l, logStep cfg now pb st ev = .ok (st', some l) → l.data = "omitted" := by
  intro st' l hstep
  unfold logStep computeData at hstep
  rw [h1] at hstep
  by_cases hng :
      (cfg.respectNoLog &&
        truthy ((ps.lookup "_ansible_no_log").getD (.bool false))) = true
  · simp only [hng, if_true] at hstep
    simp at hstep
  · simp only [Bool.not_eq_true] at hng
    simp only [hng, Bool.false_eq_true, if_false, h2, if_true] at hstep
    simp only [Except.ok.injEq, Prod.mk.injEq] at hstep
    obtain ⟨-, hl⟩ := hstep
    rw [← Option.some.inj hl]

/-- C6 witness: a concrete event carrying the marker produces a line whose
data segment is "omitted". -/
theorem log_verbose_override_omits_witness :
    (⟨"n", "p", "t", "a", "OK", "omitted"⟩ : LogLine).data = "omitted" :=
  log_verbose_override_omits ⟨true, false, []⟩ "n" "p" initState
    ⟨"h1", "t", "a", "OK",
      .dict (.cons "_ansible_verbose_override" (.bool true)
        (.cons "rc" (.int 0) .nil))⟩
    (.cons "_ansible_verbose_override" (.bool true) (.cons "rc" (.int 0) .nil))
    rfl (by decide)
    ⟨1, [("h1", 0)], [(0, ["n - p - t - a - OK - omitted\n\n"])]⟩
    ⟨"n", "p", "t", "a", "OK", "omitted"⟩
    (by decide)

/-- C7: when the mapping payload carries invocation module arguments under
the `invocation` key, `log` renders them separately from the rest of the
payload (the `invocation` binding is popped before the body is rendered)
and prepends them to the rendered body as `<invocation> => <body> `;
hypothesis h8 expresses the flag choice: compact untouched `json.dumps`
when `format_invocation` is disabled, the full recursive Formatter when
enabled. -/
theorem log_invocation_prepended (cfg : Config) (now pb : String)
    (st : SinkState) (ev : Event) (ps ips : PyDict) (m : PyVal)
    (body invText : String)
    (h1 : ev.res = .dict ps)
    (h2 : (cfg.respectNoLog &&
      truthy ((ps.lookup "_ansible_no_log").getD (.bool false))) = false)
    (h3 : ps.hasKey "_ansible_verbose_override" = false)
    (h4 : ps.lookup "invocation" = some (.dict ips))
    (h5 : ips.lookup "module_args" = some m)
    (h6 : m ≠ .null)
    (h7 : fmtText cfg.whitelistKeys (.dict (ps.removeKey "invocation")) = .ok body)
    (h8 : (if cfg.formatInvocation then fmtText cfg.whitelistKeys m
           else .ok (jsonCompactV m)) = .ok invText) :
    ∃ st' l, logStep cfg now pb st ev = .ok (st', some l) ∧
      l.data = invText ++ " => " ++ body ++ " " := by
  unfold logStep computeData
  rw [h1]
  simp only [h2, Bool.false_eq_true, if_false, h3, if_true, h4, h5,
    Option.getD_some, h7, if_neg h6, h8]
  exact ⟨_, _, rfl, rfl⟩

/-- C7 witness: a concrete payload with module arguments, with
`format_invocation` disabled, yields the compact-JSON invocation prefix
followed by ` => `, the rendered body and a trailing space. -/
theorem log_invocation_prepended_witness :
    ∃ st' l,
      logStep ⟨true, false, []⟩ "n" "p" initState
        ⟨"h1", "t", "a", "OK",
          .dict (.cons "invocation"
            (.dict (.cons "module_args" (.dict (.cons "a" (.int 1) .nil)) .nil))
            (.cons "rc" (.int 0) .nil))⟩ = .ok (st', some l) ∧
      l.data = "\x7b\"a\": 1\x7d" ++ " => " ++ "\x7b\n  \"rc\": 0\n\x7d" ++ " " :=
  log_invocation_prepended _ _ _ _ _
    (.cons "invocation"
      (.dict (.cons "module_args" (.dict (.cons "a" (.int 1) .nil)) .nil))
      (.cons "rc" (.int 0) .nil))
    (.cons "module_args" (.dict (.cons "a" (.int 1) .nil)) .nil)
    (.dict (.cons "a" (.int 1) .nil))
    "\x7b\n  \"rc\": 0\n\x7d" "\x7b\"a\": 1\x7d"
    rfl (by decide) (by decide) (by decide) (by decide) (by decide)
    (by decide) (by decide)

/-- C8: over any sequence of log calls starting from the empty registry,
each host's lookup misses exactly once (zero times if the host never
logs), every resolution for one host returns the same sink id, and
resolutions for two different hosts never return the same sink id. -/
theorem sinkRegistry_props (hs : List String) (h : String)
    (e e' : String × Nat × Bool)
    (he : e ∈ (runHosts initState hs).1) (he' : e' ∈ (runHosts initState hs).1) :
    countMiss h (runHosts initState hs).1 = (if h ∈ hs then 1 else 0) ∧
    (e.1 = e'.1 → e.2.1 = e'.2.1) ∧
    (e.1 ≠ e'.1 → e.2.1 ≠ e'.2.1) := by
  refine ⟨?_, ?_, ?_⟩
  · have hcm := countMiss_run hs initState h
    simpa [initState, List.lookup] using hcm
  · intro hhost
    have h1 := trace_sid_final hs initState e he
    have h2 := trace_sid_final hs initState e' he'
    rw [hhost] at h1
    rw [h1] at h2
    exact Option.some.inj h2
  · intro hne hsid
    have h1 := trace_sid_final hs initState e he
    have h2 := trace_sid_final hs initState e' he'
    have hwf := regWF_run hs initState ⟨by simp [initState], by simp [initState]⟩
    rw [hsid] at h1
    exact hne (lookup_inj _ _ _ _ hwf.2 h1 h2)

/-- C8 witness: for the call sequence h1, h2, h1 the first h1 call misses,
the second hits with the same sink id 0, and h2 gets the distinct sink
id 1. -/
theorem sinkRegistry_props_witness :
    countMiss "h1" (runHosts initState ["h1", "h2", "h1"]).1 =
      (if "h1" ∈ ["h1", "h2", "h1"] then 1 else 0) ∧
    ((("h1", 0, true) : String × Nat × Bool).1 =
        (("h2", 1, true) : String × Nat × Bool).1 →
      (("h1", 0, true) : String × Nat × Bool).2.1 =
        (("h2", 1, true) : String × Nat × Bool).2.1) ∧
    ((("h1", 0, true) : String × Nat × Bool).1 ≠
        (("h2", 1, true) : String × Nat × Bool).1 →
      (("h1", 0, true) : String × Nat × Bool).2.1 ≠
        (("h2", 1, true) : String × Nat × Bool).2.1) :=
  sinkRegistry_props ["h1", "h2", "h1"] "h1" ("h1", 0, true) ("h2", 1, true)
    (by decide) (by decide)

/-- C9 (amended): the Formatter is deterministic and stable under
repetition — if a call returns text t and leaves the value as v', then a
second call on v' returns the same text t (and leaves v' unchanged) — so
render(x) == render(x) holds for the returned text; but it is not free of
side effects on its input: see the counterexample, the list-of-dicts
branch rewrites known verbose fields of the input in place. -/
theorem formatOutput_idem (wl : List String) (v : PyVal) :
    ∀ t v', formatOutput wl v = .ok (t, v') → formatOutput wl v' = .ok (t, v') := by
  cases v with
  | str s =>
    intro t v' h
    rw [formatOutput_str] at h
    injection h with h
    rw [Prod.mk.injEq] at h
    obtain ⟨ht, hv⟩ := h
    subst ht; subst hv
    exact formatOutput_str wl s
  | int n =>
    intro t v' h
    simp only [formatOutput] at h
    injection h with h
    rw [Prod.mk.injEq] at h
    obtain ⟨ht, hv⟩ := h
    subst ht; subst hv
    rfl
  | bool b =>
    intro t v' h
    simp only [formatOutput] at h
    injection h with h
    rw [Prod.mk.injEq] at h
    obtain ⟨ht, hv⟩ := h
    subst ht; subst hv
    rfl
  | null =>
    intro t v' h
    simp only [formatOutput] at h
    injection h with h
    rw [Prod.mk.injEq] at h
    obtain ⟨ht, hv⟩ := h
    subst ht; subst hv
    rfl
  | dict ps =>
    intro t v' h
    simp only [formatOutput] at h
    injection h with h
    rw [Prod.mk.injEq] at h
    obtain ⟨ht, hv⟩ := h
    subst ht; subst hv
    simp only [formatOutput]
  | list xs =>
    cases xs with
    | nil =>
      intro t v' h
      simp only [formatOutput] at h
      exact absurd h (by simp)
    | cons hd tl =>
      intro t v' h
      cases hhd : isDict hd with
      | true =>
        simp only [formatOutput, hhd, if_pos] at h
        cases hi : formatItems wl (PyList.cons hd tl) with
        | error e => rw [hi] at h; simp at h
        | ok items =>
          have hIdem := formatItems_idem wl _ _ hi
          simp only [hi] at h
          injection h with h
          rw [Prod.mk.injEq] at h
          obtain ⟨ht, hv⟩ := h
          subst ht; subst hv
          cases hd with
          | dict ps =>
            simp only [formatItems] at hi
            cases he : formatEntries wl ps with
            | error e => rw [he] at hi; simp at hi
            | ok ps' =>
              simp only [he] at hi
              cases hi2 : formatItems wl tl with
              | error e => rw [hi2] at hi; simp at hi
              | ok tl' =>
                simp only [hi2] at hi
                injection hi with hi
                subst hi
                simp only [formatOutput, isDict, if_pos, hIdem]
          | str s => simp [isDict] at hhd
          | int n => simp [isDict] at hhd
          | bool b => simp [isDict] at hhd
          | null => simp [isDict] at hhd
          | list ys => simp [isDict] at hhd
      | false =>
        simp only [formatOutput, hhd, Bool.false_eq_true, if_false] at h
        cases hb : buildLines (PyList.cons hd tl) with
        | error e => rw [hb] at h; simp at h
        | ok real =>
          simp only [hb] at h
          by_cases hc : (String.join real).length > 75
          · rw [if_pos hc] at h
            injection h with h
            rw [Prod.mk.injEq] at h
            obtain ⟨ht, hv⟩ := h
            subst ht; subst hv
            simp only [formatOutput, hhd, Bool.false_eq_true, if_false, hb]
            rw [if_pos hc]
          · rw [if_neg hc] at h
            injection h with h
            rw [Prod.mk.injEq] at h
            obtain ⟨ht, hv⟩ := h
            subst ht; subst hv
            simp only [formatOutput, hhd, Bool.false_eq_true, if_false, hb]
            rw [if_neg hc]

/-- C9 witness: re-rendering the value left behind by a first render of
[\x7b"delta": 5\x7d] returns the same text. -/
theorem formatOutput_idem_witness :
    formatOutput [] (.list (pyList [.dict (pyDict [("delta", .str "5")])])) =
      .ok ("[\n  \x7b\n    \"delta\": \"5\"\n  \x7d\n]",
           .list (pyList [.dict (pyDict [("delta", .str "5")])])) :=
  formatOutput_idem [] (.list (pyList [.dict (pyDict [("delta", .int 5)])])) _ _
    (by decide)

/-- C9 counterexample: rendering is not side-effect-free on the input —
on the list-of-dicts payload [\x7b"delta": 5\x7d] the call leaves the
input rewritten in place to [\x7b"delta": "5"\x7d] (the known verbose
field's value replaced by its rendered text), which differs from the
original input. -/
theorem formatOutput_mutates_input :
    formatOutput [] (.list (pyList [.dict (pyDict [("delta", .int 5)])])) =
      .ok ("[\n  \x7b\n    \"delta\": \"5\"\n  \x7d\n]",
           .list (pyList [.dict (pyDict [("delta", .str "5")])])) ∧
    PyVal.list (pyList [.dict (pyDict [("delta", .str "5")])]) ≠
      PyVal.list (pyList [.dict (pyDict [("delta", .int 5)])]) := by
  refine ⟨by decide, by decide⟩

/-- C10: a non-mapping payload takes none of the mapping-only steps — the
whole isinstance block is skipped, so no suppression, no redaction, no
invocation handling and no Formatter call — and the raw value's default
string form is interpolated into the template; a line is always produced
and appended to the host's sink. -/
theorem log_non_mapping_raw (cfg : Config) (now pb : String) (st : SinkState)
    (ev : Event) (h : isDict ev.res = false) :
    logStep cfg now pb st ev =
      .ok (appendLine (resolveSink st ev.host).2.2 (resolveSink st ev.host).1
             (renderLine { now := now, playbook := pb, taskName := ev.taskName,
                           taskAction := ev.taskAction, category := ev.category,
                           data := pyStr ev.res }),
           some { now := now, playbook := pb, taskName := ev.taskName,
                  taskAction := ev.taskAction, category := ev.category,
                  data := pyStr ev.res }) := by
  cases hres : ev.res with
  | dict ps => rw [hres] at h; simp [isDict] at h
  | str s => simp [logStep, computeData, hres]
  | int n => simp [logStep, computeData, hres]
  | bool b => simp [logStep, computeData, hres]
  | null => simp [logStep, computeData, hres]
  | list xs => simp [logStep, computeData, hres]

/-- C10 witness: a plain string payload is logged as is (its `str` form),
appended to the freshly created sink for its host, whatever the options
say. -/
theorem log_non_mapping_raw_witness :
    logStep ⟨true, true, ["x"]⟩ "n" "p" initState
        ⟨"h1", "t", "a", "OK", .str "hello"⟩ =
      .ok (⟨1, [("h1", 0)], [(0, ["n - p - t - a - OK - hello\n\n"])]⟩,
           some ⟨"n", "p", "t", "a", "OK", "hello"⟩) :=
  log_non_mapping_raw ⟨true, true, ["x"]⟩ "n" "p" initState
    ⟨"h1", "t", "a", "OK", .str "hello"⟩ (by decide)
